import Mathlib

/-!
Verification of the status-derivation and table filter/sort/pagination
pipeline of a CRM front-end.  The definitions below are a shallow
embedding of the client-side list-processing code of
src/src/pages/Meetings.tsx and src/src/components/LeadTable.tsx:
JavaScript strings are lists of characters, timestamps are already
parsed instants (epoch milliseconds as integers), and the stateful
React handlers become pure functions from the previous state (and the
event payload) to the next state.
-/

/-- Characters of a JavaScript string. -/
abbrev Str := List Char

/-- Model of String.prototype.toLowerCase, character by character. -/
def lowerStr (s : Str) : Str := s.map Char.toLower

/-- Helper for substring search: does `s` start with the pattern `pat`
(model of String.prototype.startsWith)? -/
def strStartsWith : Str → Str → Bool
  | [], _ => true
  | _ :: _, [] => false
  | c :: pat, d :: s => c == d && strStartsWith pat s

/-- Model of String.prototype.includes: `strIncludes s pat` is true iff
`pat` occurs as a contiguous substring of `s`. -/
def strIncludes : Str → Str → Bool
  | [], pat => pat.isEmpty
  | s@(_ :: t), pat => strStartsWith pat s || strIncludes t pat

/-- Plain code-point lexicographic comparison of two strings, the order
JavaScript uses for `<` and `>` on strings; returns -1, 0 or 1. -/
def lexCmp : Str → Str → Int
  | [], [] => 0
  | [], _ :: _ => -1
  | _ :: _, [] => 1
  | a :: as, b :: bs => if a < b then -1 else if b < a then 1 else lexCmp as bs

/-- Tertiary (case) pass of the default collator: on two strings that
agree after case folding, the first position whose characters differ
decides, lowercase ordered first. -/
def tertCmp : Str → Str → Int
  | [], [] => 0
  | [], _ :: _ => -1
  | _ :: _, [] => 1
  | a :: as, b :: bs => if a = b then tertCmp as bs else if a.isLower then -1 else 1

/-- Model of String.prototype.localeCompare under the ECMA-402 default
collator, restricted to ASCII: the case-folded strings are compared
lexicographically first (primary strength); strings that are equal
after case folding are ordered by their first case difference,
lowercase first (tertiary strength).  The essential feature for the
claims below is that two distinct strings compare as nonzero even when
they differ only in letter case. -/
def localeCompare (a b : Str) : Int :=
  if lexCmp (lowerStr a) (lowerStr b) = 0 then tertCmp a b
  else lexCmp (lowerStr a) (lowerStr b)

/-- Insertion step of the stable sort: `a` is placed before the first
element that compares strictly greater, hence after every earlier
element that compares equal. -/
def jsInsert (cmp : α → α → Int) (a : α) : List α → List α
  | [] => [a]
  | b :: bs => if cmp a b < 0 then a :: b :: bs else b :: jsInsert cmp a bs

/-- Model of Array.prototype.sort with comparator `cmp`: ECMAScript
requires the sort to be stable, so for a consistent comparator the
result is the unique stable ordering, realized here as a stable
insertion sort. -/
def jsSort (cmp : α → α → Int) (l : List α) : List α :=
  l.foldl (fun acc a => jsInsert cmp a acc) []

/-- Model of the JavaScript expression `a || b` for a possibly
null/undefined string `a`: null, undefined and the empty string are
falsy and fall through to `b`. -/
def jsOrStr (a : Option Str) (b : Str) : Str :=
  match a with
  | some s => if s.isEmpty then b else s
  | none => b

/-- Stored/effective status of a meeting (spec section 3). -/
inductive MeetingStatus where
  | scheduled
  | ongoing
  | completed
  | cancelled
deriving DecidableEq

/-- String rendering of a status, as compared against the status filter
value by src/src/pages/Meetings.tsx. -/
def statusStr : MeetingStatus → Str
  | .scheduled => "scheduled".toList
  | .ongoing => "ongoing".toList
  | .completed => "completed".toList
  | .cancelled => "cancelled".toList

/-- Modelled from the spec: the Status Resolver `getMeetingStatus` is
imported by src/src/pages/Meetings.tsx from src/utils/meetingStatus,
a file that is not among the provided sources.  Following spec section
4.1, the algorithm is a priority chain with first match winning:
a stored status of cancelled always yields cancelled; otherwise
`startTime <= now < endTime` yields ongoing, `now >= endTime` yields
completed, and the remaining case (`now < startTime`) yields scheduled.
Timestamps are already-parsed instants; `now` is injected as a
parameter. -/
def getMeetingStatus (stored : MeetingStatus) (startTime endTime now : Int) : MeetingStatus :=
  if stored = .cancelled then .cancelled
  else if startTime ≤ now ∧ now < endTime then .ongoing
  else if endTime ≤ now then .completed
  else .scheduled

/-- Meeting record as consumed by the Meetings page pipeline
(src/src/pages/Meetings.tsx, interface Meeting).  Display-only fields
(description, join_url, attendees, outcome, notes, created_at, lead_id,
contact_id) are omitted: the filter/sort/selection code never reads
them.  `start_time` and `end_time` are the parsed instants of the ISO
strings, and `status` is the persisted stored status. -/
structure Meeting where
  id : Str
  subject : Str
  start_time : Int
  end_time : Int
  status : MeetingStatus
  lead_name : Option Str := none
  contact_name : Option Str := none
  created_by : Option Str := none

/-- Embedding of `getEffectiveStatus` of src/src/pages/Meetings.tsx
(line 136), which delegates to the Status Resolver, with `now` made
explicit. -/
def getEffectiveStatus (m : Meeting) (now : Int) : MeetingStatus :=
  getMeetingStatus m.status m.start_time m.end_time now

/-- Optional-chaining search test `field?.toLowerCase().includes(pat)`:
a missing field makes the whole expression undefined, hence falsy. -/
def optIncludesLower : Option Str → Str → Bool
  | some s, pat => strIncludes (lowerStr s) pat
  | none, _ => false

/-- Search predicate of `sortedAndFilteredMeetings`
(src/src/pages/Meetings.tsx line 155): subject, lead_name or
contact_name, lower-cased, must contain the lower-cased search term. -/
def meetingsMatchesSearch (m : Meeting) (searchTerm : Str) : Bool :=
  strIncludes (lowerStr m.subject) (lowerStr searchTerm)
  || optIncludesLower m.lead_name (lowerStr searchTerm)
  || optIncludesLower m.contact_name (lowerStr searchTerm)

/-- Status-filter predicate of `sortedAndFilteredMeetings`
(src/src/pages/Meetings.tsx line 157): the sentinel "all" passes
everything, otherwise the effective status string must equal the
filter value. -/
def meetingsMatchesStatus (m : Meeting) (statusFilter : Str) (now : Int) : Bool :=
  decide (statusFilter = "all".toList)
  || decide (statusStr (getEffectiveStatus m now) = statusFilter)

/-- Organizer-filter predicate of `sortedAndFilteredMeetings`
(src/src/pages/Meetings.tsx line 158): the sentinel "all" passes
everything, otherwise `created_by` must equal the filter value
(undefined `created_by` never equals a filter string). -/
def meetingsMatchesOrganizer (m : Meeting) (organizerFilter : Str) : Bool :=
  decide (organizerFilter = "all".toList)
  || (match m.created_by with
      | some c => decide (c = organizerFilter)
      | none => false)

/-- Filter stage of `sortedAndFilteredMeetings`
(src/src/pages/Meetings.tsx lines 154-161): one pass keeping the
records that match search, status filter and organizer filter. -/
def meetingsFilterStep (meetings : List Meeting)
    (searchTerm statusFilter organizerFilter : Str) (now : Int) : List Meeting :=
  meetings.filter (fun m =>
    meetingsMatchesSearch m searchTerm
    && meetingsMatchesStatus m statusFilter now
    && meetingsMatchesOrganizer m organizerFilter)

/-- Sort direction of both table views. -/
inductive SortDir where
  | asc
  | desc
deriving DecidableEq

/-- Value produced for one side of the meetings comparator: JavaScript
declares `let aValue: string | number`. -/
inductive SVal where
  | str (v : Str)
  | num (v : Int)

/-- Comparison of two comparator values with JavaScript `<` and `>`:
code-point order on strings, numeric order on numbers.  The mixed
cases never arise, since each sort column produces a single kind. -/
def svalCmp : SVal → SVal → Int
  | .str a, .str b => lexCmp a b
  | .num a, .num b => if a < b then -1 else if b < a then 1 else 0
  | _, _ => 0

/-- Model of `new Date(t).setHours(0, 0, 0, 0)` with the clock in UTC:
the instant of the enclosing midnight, in epoch milliseconds. -/
def dateKeyMs (t : Int) : Int := (t.fdiv 86400000) * 86400000

/-- Model of `d.getHours() * 60 + d.getMinutes()` with the clock in
UTC: whole minutes since the enclosing midnight. -/
def minutesOfDay (t : Int) : Int := (t.fmod 86400000).fdiv 60000

/-- Per-column sort key of the meetings comparator
(src/src/pages/Meetings.tsx lines 164-189).  The switch recognizes the
five named columns; any other column identifier keeps the initial
values, the empty string on both sides. -/
def meetingsSortValue (col : Str) (now : Int) (m : Meeting) : SVal :=
  if col = "subject".toList then .str (lowerStr m.subject)
  else if col = "date".toList then .num (dateKeyMs m.start_time)
  else if col = "time".toList then .num (minutesOfDay m.start_time)
  else if col = "lead_contact".toList then
    .str (lowerStr (jsOrStr m.lead_name (jsOrStr m.contact_name [])))
  else if col = "status".toList then .str (statusStr (getEffectiveStatus m now))
  else .str []

/-- Meetings comparator (src/src/pages/Meetings.tsx lines 163-193):
compare the per-column keys; descending direction flips the sign. -/
def meetingsCompare (col : Str) (dir : SortDir) (now : Int) (a b : Meeting) : Int :=
  let c := svalCmp (meetingsSortValue col now a) (meetingsSortValue col now b)
  if dir = .asc then c else -c

/-- Sort stage of `sortedAndFilteredMeetings`
(src/src/pages/Meetings.tsx lines 162-194): applied only when a sort
column is selected. -/
def meetingsSortStep (col : Option Str) (dir : SortDir) (now : Int)
    (l : List Meeting) : List Meeting :=
  match col with
  | none => l
  | some c => jsSort (meetingsCompare c dir now) l

/-- Embedding of the `sortedAndFilteredMeetings` memo
(src/src/pages/Meetings.tsx lines 153-196): filter, then sort. -/
def sortedAndFilteredMeetings (meetings : List Meeting)
    (searchTerm statusFilter organizerFilter : Str)
    (col : Option Str) (dir : SortDir) (now : Int) : List Meeting :=
  meetingsSortStep col dir now
    (meetingsFilterStep meetings searchTerm statusFilter organizerFilter now)

/-- Embedding of `handleSelectAll` of src/src/pages/Meetings.tsx
(lines 241-247): checking the header checkbox replaces the selection
with the ids of ALL currently filtered meetings (the Meetings page has
no pagination); unchecking clears it. -/
def meetingsHandleSelectAll (checked : Bool) (filteredMeetings : List Meeting) : List Str :=
  if checked then filteredMeetings.map (fun m => m.id) else []

/-- Embedding of `handleSelectMeeting` of src/src/pages/Meetings.tsx
(lines 248-254): checking appends the id to the previous selection,
unchecking removes every occurrence of it. -/
def meetingsHandleSelectMeeting (prev : List Str) (meetingId : Str) (checked : Bool) : List Str :=
  if checked then prev ++ [meetingId]
  else prev.filter (fun i => decide (i ≠ meetingId))

/-- Row returned by the meetings fetch, with the joined lead and
contact display names (`meeting.leads?.lead_name`,
`meeting.contacts?.contact_name`). -/
structure RawMeeting where
  id : Str
  subject : Str
  start_time : Int
  end_time : Int
  status : MeetingStatus
  leads_lead_name : Option Str := none
  contacts_contact_name : Option Str := none
  created_by : Option Str := none

/-- Transform applied to each fetched row (src/src/pages/Meetings.tsx
lines 115-119): flatten the joined names onto the record. -/
def transformMeeting (r : RawMeeting) : Meeting :=
  { id := r.id
    subject := r.subject
    start_time := r.start_time
    end_time := r.end_time
    status := r.status
    lead_name := r.leads_lead_name
    contact_name := r.contacts_contact_name
    created_by := r.created_by }

/-- Slice of the Meetings page state touched by `fetchMeetings`. -/
structure MeetingsPageState where
  meetings : List Meeting
  selectedMeetings : List Str

/-- Embedding of `fetchMeetings` (src/src/pages/Meetings.tsx lines
101-132) as a state transition on the backend response: on success the
rows (null data coerced to the empty list) are transformed and stored
and the bulk selection is cleared; on error the catch block only
reports a toast, leaving the state unchanged. -/
def fetchMeetingsStep (st : MeetingsPageState)
    (response : Except Unit (Option (List RawMeeting))) : MeetingsPageState :=
  match response with
  | .error _ => st
  | .ok data =>
    { st with
      meetings := (data.getD []).map transformMeeting
      selectedMeetings := [] }

/-- Lead record (src/src/components/LeadTable.tsx, interface Lead):
`id` and `lead_name` are required, every other attribute is optional. -/
structure Lead where
  id : Str
  lead_name : Str
  company_name : Option Str := none
  account_company_name : Option Str := none
  account_id : Option Str := none
  position : Option Str := none
  email : Option Str := none
  phone_no : Option Str := none
  contact_owner : Option Str := none
  created_time : Option Str := none
  modified_time : Option Str := none
  lead_status : Option Str := none
  contact_source : Option Str := none
  linkedin : Option Str := none
  website : Option Str := none
  description : Option Str := none
  created_by : Option Str := none
  modified_by : Option Str := none

/-- Dynamic field access `a[sortField as keyof Lead] || ''` of the
LeadTable comparator (src/src/components/LeadTable.tsx lines 174-175):
a recognized key yields the field value with null/undefined (and, per
the JavaScript `||`, the empty string) coerced to the empty string; an
unrecognized key yields undefined, hence the empty string. -/
def getLeadField (l : Lead) (field : Str) : Str :=
  if field = "id".toList then jsOrStr (some l.id) []
  else if field = "lead_name".toList then jsOrStr (some l.lead_name) []
  else if field = "company_name".toList then jsOrStr l.company_name []
  else if field = "account_company_name".toList then jsOrStr l.account_company_name []
  else if field = "account_id".toList then jsOrStr l.account_id []
  else if field = "position".toList then jsOrStr l.position []
  else if field = "email".toList then jsOrStr l.email []
  else if field = "phone_no".toList then jsOrStr l.phone_no []
  else if field = "contact_owner".toList then jsOrStr l.contact_owner []
  else if field = "created_time".toList then jsOrStr l.created_time []
  else if field = "modified_time".toList then jsOrStr l.modified_time []
  else if field = "lead_status".toList then jsOrStr l.lead_status []
  else if field = "contact_source".toList then jsOrStr l.contact_source []
  else if field = "linkedin".toList then jsOrStr l.linkedin []
  else if field = "website".toList then jsOrStr l.website []
  else if field = "description".toList then jsOrStr l.description []
  else if field = "created_by".toList then jsOrStr l.created_by []
  else if field = "modified_by".toList then jsOrStr l.modified_by []
  else []

/-- List of the recognized Lead keys, for stating the fallback claim. -/
def leadFieldNames : List Str :=
  ["id".toList, "lead_name".toList, "company_name".toList,
   "account_company_name".toList, "account_id".toList, "position".toList,
   "email".toList, "phone_no".toList, "contact_owner".toList,
   "created_time".toList, "modified_time".toList, "lead_status".toList,
   "contact_source".toList, "linkedin".toList, "website".toList,
   "description".toList, "created_by".toList, "modified_by".toList]

/-- Search predicate of the filteredLeads effect
(src/src/components/LeadTable.tsx line 163): lead_name, company_name
or email, lower-cased, must contain the lower-cased search term. -/
def leadsMatchesSearch (l : Lead) (searchTerm : Str) : Bool :=
  strIncludes (lowerStr l.lead_name) (lowerStr searchTerm)
  || optIncludesLower l.company_name (lowerStr searchTerm)
  || optIncludesLower l.email (lowerStr searchTerm)

/-- Status predicate applied when the status filter is not "all"
(src/src/components/LeadTable.tsx line 165): exact equality on the
stored lead_status. -/
def leadsStatusPred (l : Lead) (statusFilter : Str) : Bool :=
  match l.lead_status with
  | some s => decide (s = statusFilter)
  | none => false

/-- Owner predicate applied when the owner filter is not "all"
(src/src/components/LeadTable.tsx line 168): exact equality on
created_by. -/
def leadsOwnerPred (l : Lead) (ownerFilter : Str) : Bool :=
  match l.created_by with
  | some c => decide (c = ownerFilter)
  | none => false

/-- Filter stage of the filteredLeads effect
(src/src/components/LeadTable.tsx lines 162-169): search pass, then
the status filter unless it is "all", then the owner filter unless it
is "all". -/
def leadsFilterOnly (leads : List Lead) (searchTerm statusFilter ownerFilter : Str) : List Lead :=
  let f1 := leads.filter (fun l => leadsMatchesSearch l searchTerm)
  let f2 := if statusFilter ≠ "all".toList
            then f1.filter (fun l => leadsStatusPred l statusFilter) else f1
  if ownerFilter ≠ "all".toList
  then f2.filter (fun l => leadsOwnerPred l ownerFilter) else f2

/-- LeadTable comparator (src/src/components/LeadTable.tsx lines
173-178): localeCompare on the dynamically accessed field values,
sign-flipped for descending direction. -/
def leadsCompare (field : Str) (dir : SortDir) (a b : Lead) : Int :=
  let c := localeCompare (getLeadField a field) (getLeadField b field)
  if dir = .asc then c else -c

/-- Sort stage of the filteredLeads effect
(src/src/components/LeadTable.tsx lines 172-179): applied only when a
sort field is selected. -/
def leadsSortStep (field : Option Str) (dir : SortDir) (l : List Lead) : List Lead :=
  match field with
  | none => l
  | some f => jsSort (leadsCompare f dir) l

/-- Embedding of the filteredLeads effect
(src/src/components/LeadTable.tsx lines 162-182): whenever leads,
search term, a filter, the sort field or the sort direction changes,
filteredLeads is recomputed and currentPage is reset to 1.  Returns
the pair (new filteredLeads, new currentPage). -/
def leadsRecompute (leads : List Lead) (searchTerm statusFilter ownerFilter : Str)
    (sortField : Option Str) (dir : SortDir) : List Lead × Nat :=
  (leadsSortStep sortField dir (leadsFilterOnly leads searchTerm statusFilter ownerFilter), 1)

/-- Embedding of `getCurrentPageLeads`
(src/src/components/LeadTable.tsx lines 334-337):
`filteredLeads.slice(startIndex, startIndex + itemsPerPage)` with
`startIndex = (currentPage - 1) * itemsPerPage`. -/
def getCurrentPageLeads (filteredLeads : List Lead) (currentPage itemsPerPage : Nat) : List Lead :=
  (filteredLeads.drop ((currentPage - 1) * itemsPerPage)).take itemsPerPage

/-- Embedding of `totalPages = Math.ceil(filteredLeads.length /
itemsPerPage)` (src/src/components/LeadTable.tsx line 339). -/
def leadsTotalPages (filteredLeads : List Lead) (itemsPerPage : Nat) : Nat :=
  (filteredLeads.length + itemsPerPage - 1) / itemsPerPage

/-- Embedding of `handleSelectAll` of src/src/components/LeadTable.tsx
(lines 317-324): checking replaces the selection with the ids of the
current page's leads, additionally capped at 50 by the explicit
`.slice(0, 50)`; unchecking clears it. -/
def leadsHandleSelectAll (checked : Bool) (filteredLeads : List Lead)
    (currentPage itemsPerPage : Nat) : List Str :=
  if checked
  then ((getCurrentPageLeads filteredLeads currentPage itemsPerPage).take 50).map (fun l => l.id)
  else []

/-- Embedding of `handleSelectLead` of src/src/components/LeadTable.tsx
(lines 326-332): checking appends the id to the previous selection,
unchecking removes every occurrence of it. -/
def leadsHandleSelectLead (prev : List Str) (leadId : Str) (checked : Bool) : List Str :=
  if checked then prev ++ [leadId]
  else prev.filter (fun i => decide (i ≠ leadId))

/-- Specification-side search predicate for meetings, written from the
spec's words (section 4.2, search step): the record passes if any of
the module's searchable text fields, lower-cased, contains the
lower-cased search term, a missing or null field being treated as the
empty string.  Compared against the code's predicate in claim C3. -/
def meetingsSearchSpec (m : Meeting) (searchTerm : Str) : Bool :=
  [m.subject, m.lead_name.getD [], m.contact_name.getD []].any
    (fun f => strIncludes (lowerStr f) (lowerStr searchTerm))

/-- Specification-side search predicate for leads, written from the
spec's words (section 4.2, search step), analogous to
`meetingsSearchSpec`. -/
def leadsSearchSpec (l : Lead) (searchTerm : Str) : Bool :=
  [l.lead_name, l.company_name.getD [], l.email.getD []].any
    (fun f => strIncludes (lowerStr f) (lowerStr searchTerm))

/-- Search conjunct of the meetings filter, as a standalone predicate. -/
def meetingsSearchPred (searchTerm : Str) : Meeting → Bool :=
  fun m => meetingsMatchesSearch m searchTerm

/-- Status-filter conjunct of the meetings filter, as a standalone
predicate. -/
def meetingsStatusPred (statusFilter : Str) (now : Int) : Meeting → Bool :=
  fun m => meetingsMatchesStatus m statusFilter now

/-- Organizer-filter conjunct of the meetings filter, as a standalone
predicate. -/
def meetingsOrgPred (organizerFilter : Str) : Meeting → Bool :=
  fun m => meetingsMatchesOrganizer m organizerFilter

/-- Search pass of the leads filter, as a standalone predicate. -/
def leadsSearchGuard (searchTerm : Str) : Lead → Bool :=
  fun l => leadsMatchesSearch l searchTerm

/-- Status pass of the leads filter as a predicate, with the "all"
sentinel (which skips the pass in the source) made an always-true
predicate. -/
def leadsStatusGuard (statusFilter : Str) : Lead → Bool :=
  fun l => if statusFilter = "all".toList then true else leadsStatusPred l statusFilter

/-- Owner pass of the leads filter as a predicate, with the "all"
sentinel made an always-true predicate. -/
def leadsOwnerGuard (ownerFilter : Str) : Lead → Bool :=
  fun l => if ownerFilter = "all".toList then true else leadsOwnerPred l ownerFilter

/-- Meeting numbered `n`, for concrete instantiations: scheduled,
10:00 to 11:00 (in epoch milliseconds of 2024-01-01) with a numeric
id. -/
def mkMeeting (n : Nat) : Meeting :=
  { id := (toString n).toList
    subject := "sync".toList
    start_time := 1704103200000
    end_time := 1704106800000
    status := .scheduled }

/-- Lead numbered `n`, for concrete instantiations. -/
def mkLead (n : Nat) : Lead :=
  { id := (toString n).toList
    lead_name := "lead".toList }

/-- Concrete meeting used to instantiate universally quantified
theorems: scheduled, running from instant 10 to instant 20. -/
def sampleMeeting : Meeting :=
  { id := "m1".toList
    subject := "kickoff".toList
    start_time := 10
    end_time := 20
    status := .scheduled }

/-- Concrete lead with a lower-case name. -/
def leadA : Lead := { id := "1".toList, lead_name := "acme corp".toList }

/-- Concrete lead whose name differs from `leadA` only in letter
case. -/
def leadB : Lead := { id := "2".toList, lead_name := "ACME Corp".toList }

/-! Helper lemmas about the string primitives. -/

lemma strStartsWith_nil (s : Str) : strStartsWith [] s = true := by
  cases s <;> rfl

lemma strIncludes_nil_right (s : Str) : strIncludes s [] = true := by
  cases s with
  | nil => rfl
  | cons c t => simp [strIncludes, strStartsWith_nil]

lemma strIncludes_nil_left (pat : Str) : strIncludes [] pat = pat.isEmpty := rfl

lemma lowerStr_eq_nil_iff (s : Str) : lowerStr s = [] ↔ s = [] := by
  simp [lowerStr]

lemma lexCmp_self (s : Str) : lexCmp s s = 0 := by
  induction s with
  | nil => rfl
  | cons a t ih => simp [lexCmp, ih]

lemma tertCmp_self (s : Str) : tertCmp s s = 0 := by
  induction s with
  | nil => rfl
  | cons a t ih => simp [tertCmp, ih]

lemma localeCompare_self (s : Str) : localeCompare s s = 0 := by
  simp [localeCompare, lexCmp_self, tertCmp_self]

lemma tertCmp_ne_zero (x y : Str) (hl : lowerStr x = lowerStr y) (hne : x ≠ y) :
    tertCmp x y ≠ 0 := by
  induction x generalizing y with
  | nil =>
    cases y with
    | nil => exact absurd rfl hne
    | cons b bs => simp [lowerStr] at hl
  | cons a as ih =>
    cases y with
    | nil => simp [lowerStr] at hl
    | cons b bs =>
      simp only [lowerStr, List.map_cons, List.cons.injEq] at hl
      by_cases hab : a = b
      · subst hab
        have : as ≠ bs := fun h => hne (by rw [h])
        simpa [tertCmp] using ih bs hl.2 this
      · simp [tertCmp, hab]
        split <;> simp

lemma localeCompare_ne_zero (x y : Str) (hl : lowerStr x = lowerStr y) (hne : x ≠ y) :
    localeCompare x y ≠ 0 := by
  simp only [localeCompare, hl, lexCmp_self, if_pos rfl]
  exact tertCmp_ne_zero x y hl hne

/-! Helper lemmas about the stable sort. -/

lemma jsInsert_of_zero {α : Type} (cmp : α → α → Int) (h : ∀ a b, cmp a b = 0)
    (a : α) (l : List α) : jsInsert cmp a l = l ++ [a] := by
  induction l with
  | nil => rfl
  | cons b bs ih => simp [jsInsert, h, ih]

lemma jsSort_of_zero {α : Type} (cmp : α → α → Int) (h : ∀ a b, cmp a b = 0)
    (l : List α) : jsSort cmp l = l := by
  have aux : ∀ (t acc : List α),
      t.foldl (fun acc a => jsInsert cmp a acc) acc = acc ++ t := by
    intro t
    induction t with
    | nil => simp
    | cons a t ih =>
      intro acc
      rw [List.foldl_cons, jsInsert_of_zero cmp h, ih]
      simp
  simpa using aux l []

/-! Helper lemmas for pagination. -/

lemma chunks_take (per : Nat) :
    ∀ (k : Nat) (l : List Lead),
      ((List.range k).map (fun j => (l.drop (j * per)).take per)).flatten = l.take (k * per) := by
  intro k
  induction k with
  | zero => intro l; simp
  | succ k ih =>
    intro l
    rw [List.range_succ_eq_map]
    simp only [List.map_cons, List.map_map, List.flatten_cons, Nat.zero_mul, List.drop_zero]
    have hcomp : ((fun j => (l.drop (j * per)).take per) ∘ (· + 1))
        = fun j => ((l.drop per).drop (j * per)).take per := by
      funext j
      simp [Function.comp, List.drop_drop, Nat.add_mul, Nat.one_mul, Nat.add_comm]
    rw [hcomp, ih (l.drop per), ← List.take_add]
    congr 1
    ring

lemma ceil_mul_ge (len per : Nat) (hper : 0 < per) :
    len ≤ (len + per - 1) / per * per := by
  have h1 := Nat.mod_add_div (len + per - 1) per
  have h2 : (len + per - 1) % per < per := Nat.mod_lt _ hper
  rw [Nat.mul_comm]
  generalize hq : per * ((len + per - 1) / per) = q at h1 ⊢
  omega

lemma chunks_flatten (per : Nat) (hper : 0 < per) (l : List Lead) :
    ((List.range (leadsTotalPages l per)).map
        (fun j => (l.drop (j * per)).take per)).flatten = l := by
  rw [leadsTotalPages, chunks_take]
  exact List.take_of_length_le (ceil_mul_ge l.length per hper)

/-! Helper lemma for the unknown-sort-column fallback. -/

lemma getLeadField_unknown (l : Lead) (field : Str) (h : field ∉ leadFieldNames) :
    getLeadField l field = [] := by
  simp only [leadFieldNames, List.mem_cons, List.not_mem_nil, or_false, not_or] at h
  obtain ⟨h1, h2, h3, h4, h5, h6, h7, h8, h9, h10, h11, h12, h13, h14, h15, h16, h17, h18⟩ := h
  simp only [getLeadField]
  rw [if_neg h1, if_neg h2, if_neg h3, if_neg h4, if_neg h5, if_neg h6, if_neg h7,
    if_neg h8, if_neg h9, if_neg h10, if_neg h11, if_neg h12, if_neg h13, if_neg h14,
    if_neg h15, if_neg h16, if_neg h17, if_neg h18]

/-! Helper lemmas for filter composition. -/

lemma filter_fold_perm {α : Type} {ps qs : List (α → Bool)} (h : ps.Perm qs) :
    ∀ (l : List α),
      ps.foldl (fun acc p => acc.filter p) l = qs.foldl (fun acc p => acc.filter p) l := by
  induction h with
  | nil => intro l; rfl
  | cons p _ ih =>
    intro l
    simp only [List.foldl_cons]
    exact ih (l.filter p)
  | swap p q t =>
    intro l
    simp only [List.foldl_cons]
    have : (l.filter q).filter p = (l.filter p).filter q := by
      simp [List.filter_filter, Bool.and_comm]
    rw [this]
  | trans _ _ ih1 ih2 =>
    intro l
    exact (ih1 l).trans (ih2 l)

lemma meetingsFilterStep_eq_foldl (meetings : List Meeting)
    (searchTerm statusFilter organizerFilter : Str) (now : Int) :
    meetingsFilterStep meetings searchTerm statusFilter organizerFilter now
      = [meetingsSearchPred searchTerm, meetingsStatusPred statusFilter now,
         meetingsOrgPred organizerFilter].foldl (fun acc p => acc.filter p) meetings := by
  simp only [meetingsFilterStep, meetingsSearchPred, meetingsStatusPred, meetingsOrgPred,
    List.foldl_cons, List.foldl_nil, List.filter_filter]
  congr 1
  funext m
  simp [Bool.and_comm, Bool.and_assoc, Bool.and_left_comm]

lemma filter_guard {α : Type} (l : List α) (c : Prop) [Decidable c] (p : α → Bool) :
    (if ¬ c then l.filter p else l) = l.filter (fun x => if c then true else p x) := by
  by_cases h : c <;> simp [h, List.filter_true]

lemma leadsFilterOnly_eq_foldl (leads : List Lead)
    (searchTerm statusFilter ownerFilter : Str) :
    leadsFilterOnly leads searchTerm statusFilter ownerFilter
      = [leadsSearchGuard searchTerm, leadsStatusGuard statusFilter,
         leadsOwnerGuard ownerFilter].foldl (fun acc p => acc.filter p) leads := by
  simp only [leadsFilterOnly, List.foldl_cons, List.foldl_nil, ne_eq]
  rw [filter_guard, filter_guard]
  rfl

lemma getMeetingStatus_eq (stored : MeetingStatus) (s e now : Int) (h : stored ≠ .cancelled) :
    getMeetingStatus stored s e now =
      if s ≤ now ∧ now < e then .ongoing else if e ≤ now then .completed else .scheduled := by
  simp [getMeetingStatus, h]

/-- C1: for every meeting (whose timestamps satisfy the data-model
invariant `startTime <= endTime` of spec section 3), the effective
status is derived by priority order with first match winning: a stored
status of cancelled yields cancelled regardless of the timestamps and
of now; otherwise the result is ongoing iff `startTime <= now <
endTime`, completed iff `now >= endTime`, and scheduled iff
`now < startTime`; in particular `now == startTime` (before the end)
yields ongoing and `now == endTime` yields completed. -/
theorem C1_effective_status_resolver (stored : MeetingStatus) (startTime endTime now : Int)
    (hse : startTime ≤ endTime) :
    (stored = .cancelled → getMeetingStatus stored startTime endTime now = .cancelled)
    ∧ (stored ≠ .cancelled →
        ((getMeetingStatus stored startTime endTime now = .ongoing
            ↔ startTime ≤ now ∧ now < endTime)
         ∧ (getMeetingStatus stored startTime endTime now = .completed ↔ endTime ≤ now)
         ∧ (getMeetingStatus stored startTime endTime now = .scheduled ↔ now < startTime)
         ∧ (now = startTime → now < endTime →
              getMeetingStatus stored startTime endTime now = .ongoing)
         ∧ (now = endTime → getMeetingStatus stored startTime endTime now = .completed))) := by
  constructor
  · intro h
    simp [getMeetingStatus, h]
  · intro h
    rw [getMeetingStatus_eq stored startTime endTime now h]
    by_cases h1 : startTime ≤ now ∧ now < endTime
    · rw [if_pos h1]
      refine ⟨⟨fun _ => h1, fun _ => rfl⟩,
        ⟨fun hx => absurd hx (by decide), fun hc => absurd h1.2 (by omega)⟩,
        ⟨fun hx => absurd hx (by decide), fun hn => absurd h1.1 (by omega)⟩,
        fun _ _ => rfl,
        fun he => absurd h1.2 (by omega)⟩
    · rw [if_neg h1]
      by_cases h2 : endTime ≤ now
      · rw [if_pos h2]
        refine ⟨⟨fun hx => absurd hx (by decide), fun hh => absurd hh h1⟩,
          ⟨fun _ => h2, fun _ => rfl⟩,
          ⟨fun hx => absurd hx (by decide), fun hn => absurd hn (by omega)⟩,
          fun hns hlt => absurd (⟨by omega, hlt⟩ : startTime ≤ now ∧ now < endTime) h1,
          fun _ => rfl⟩
      · rw [if_neg h2]
        refine ⟨⟨fun hx => absurd hx (by decide), fun hh => absurd hh h1⟩,
          ⟨fun hx => absurd hx (by decide), fun hc => absurd hc h2⟩,
          ⟨fun _ => by omega, fun _ => rfl⟩,
          fun hns hlt => absurd (⟨by omega, hlt⟩ : startTime ≤ now ∧ now < endTime) h1,
          fun he => absurd he (by omega)⟩

/-- Witness for C1: a scheduled meeting running over [0, 10) is
ongoing at instant 5. -/
theorem C1_effective_status_resolver_witness :
    getMeetingStatus .scheduled 0 10 5 = .ongoing :=
  ((C1_effective_status_resolver .scheduled 0 10 5 (by decide)).2
    (by decide)).1.mpr (by decide)

/-- Counterexample for C2: in the Meetings table view (which has no
pagination), toggling the header select-all checkbox on with 73
filtered meetings selects all 73 filtered ids, not only 50 of them —
contradicting the claim that a page-capped selection of at most
pageSize = 50 ids results in every table view. -/
theorem C2_counterexample :
    (meetingsHandleSelectAll true ((List.range 73).map mkMeeting)).length = 73 := by
  simp [meetingsHandleSelectAll]

/-- C2 (amended): in the Leads table view, toggling select-all on
replaces the selection with exactly the current page's record ids
capped at 50 — with 73 filtered leads and page size 50 it selects
exactly the 50 ids of page 1 — and toggling it off empties the
selection; the Meetings table view, however, is unpaginated, and its
select-all selects the ids of ALL filtered meetings. -/
theorem C2_select_all_page_scoped :
    (∀ (filtered : List Lead) (page : Nat),
        (leadsHandleSelectAll true filtered page 50).length ≤ 50)
    ∧ (∀ (filtered : List Lead), 73 ≤ filtered.length →
        leadsHandleSelectAll true filtered 1 50 = (filtered.take 50).map (fun l => l.id)
        ∧ (leadsHandleSelectAll true filtered 1 50).length = 50)
    ∧ (∀ (ms : List Meeting), meetingsHandleSelectAll true ms = ms.map (fun m => m.id))
    ∧ (∀ (filtered : List Lead) (page per : Nat),
        leadsHandleSelectAll false filtered page per = [])
    ∧ (∀ (ms : List Meeting), meetingsHandleSelectAll false ms = []) := by
  refine ⟨?_, ?_, fun ms => rfl, fun filtered page per => rfl, fun ms => rfl⟩
  · intro filtered page
    simp only [leadsHandleSelectAll, getCurrentPageLeads, if_pos, List.length_map,
      List.length_take]
    omega
  · intro filtered h
    have hpage : getCurrentPageLeads filtered 1 50 = filtered.take 50 := by
      simp [getCurrentPageLeads]
    constructor
    · simp [leadsHandleSelectAll, hpage, List.take_take]
    · simp only [leadsHandleSelectAll, hpage, if_pos, List.length_map, List.length_take,
        List.take_take]
      omega

/-- Witness for C2 (amended): with a concrete list of 73 leads,
select-all on page 1 with page size 50 yields exactly 50 ids. -/
theorem C2_select_all_page_scoped_witness :
    73 ≤ ((List.range 73).map mkLead).length
    ∧ (leadsHandleSelectAll true ((List.range 73).map mkLead) 1 50).length = 50 :=
  ⟨by simp, (C2_select_all_page_scoped.2.1 ((List.range 73).map mkLead) (by simp)).2⟩

/-- C3: for every record and every search term, the search step passes
the record iff one of the module's searchable text fields, lower-cased,
contains the lower-cased term as a substring with missing/null fields
read as the empty string (the code's optional-chaining predicate
coincides with that specification), and the empty search term passes
every record. -/
theorem C3_search_step :
    (∀ (m : Meeting) (term : Str), meetingsMatchesSearch m term = meetingsSearchSpec m term)
    ∧ (∀ (l : Lead) (term : Str), leadsMatchesSearch l term = leadsSearchSpec l term)
    ∧ (∀ (m : Meeting), meetingsMatchesSearch m [] = true)
    ∧ (∀ (l : Lead), leadsMatchesSearch l [] = true) := by
  refine ⟨?_, ?_, ?_, ?_⟩
  · intro m term
    cases term with
    | nil =>
      simp [meetingsMatchesSearch, meetingsSearchSpec, optIncludesLower, lowerStr,
        strIncludes_nil_right]
    | cons c t =>
      cases hl : m.lead_name <;> cases hc : m.contact_name <;>
        simp [meetingsMatchesSearch, meetingsSearchSpec, optIncludesLower, hl, hc,
          strIncludes_nil_left, lowerStr, Bool.or_assoc]
  · intro l term
    cases term with
    | nil =>
      simp [leadsMatchesSearch, leadsSearchSpec, optIncludesLower, lowerStr,
        strIncludes_nil_right]
    | cons c t =>
      cases hl : l.company_name <;> cases hc : l.email <;>
        simp [leadsMatchesSearch, leadsSearchSpec, optIncludesLower, hl, hc,
          strIncludes_nil_left, lowerStr, Bool.or_assoc]
  · intro m
    simp [meetingsMatchesSearch, lowerStr, strIncludes_nil_right]
  · intro l
    simp [leadsMatchesSearch, lowerStr, strIncludes_nil_right]

/-- C4: a meeting passes the status filter iff the Status Resolver's
output (the effective status) renders equal to the filter value; the
sentinel "all" passes every record; and the predicate depends only on
the effective status — two meetings with the same effective status at
the same instant are filtered identically, so the persisted stored
status is never compared directly. -/
theorem C4_status_filter_uses_resolver (m : Meeting) (statusFilter : Str) (now : Int) :
    (statusFilter ≠ "all".toList →
        (meetingsMatchesStatus m statusFilter now = true
          ↔ statusStr (getEffectiveStatus m now) = statusFilter))
    ∧ meetingsMatchesStatus m ("all".toList) now = true
    ∧ (∀ m2 : Meeting, getEffectiveStatus m now = getEffectiveStatus m2 now →
        meetingsMatchesStatus m statusFilter now
          = meetingsMatchesStatus m2 statusFilter now) := by
  refine ⟨fun h => ?_, by simp [meetingsMatchesStatus], fun m2 he => ?_⟩
  · unfold meetingsMatchesStatus
    rw [decide_eq_false h]
    simp
  · simp [meetingsMatchesStatus, he]

/-- Witness for C4: the sample meeting (scheduled, not yet started at
instant 5) passes the "scheduled" status filter. -/
theorem C4_status_filter_uses_resolver_witness :
    meetingsMatchesStatus sampleMeeting ("scheduled".toList) 5 = true :=
  ((C4_status_filter_uses_resolver sampleMeeting ("scheduled".toList) 5).1
    (by decide)).mpr (by decide)

/-- Counterexample for C5: toggling on an id that is already selected
is not idempotent — starting from the selection ["a"], selecting "a"
again yields ["a", "a"], a selection containing a duplicate id. -/
theorem C5_counterexample :
    meetingsHandleSelectMeeting ["a".toList] ("a".toList) true = ["a".toList, "a".toList]
    ∧ ¬ (meetingsHandleSelectMeeting ["a".toList] ("a".toList) true).Nodup := by
  constructor
  · rfl
  · decide

/-- C5 (amended): toggling an individual record's checkbox on appends
exactly that one id (membership grows by exactly that id and the
length by one) and toggling it off removes exactly the occurrences of
that one id; selecting an id that is already present is NOT
idempotent — the handler appends unconditionally, so a duplicate
appears — but from a duplicate-free selection not containing the id,
toggling on keeps the selection duplicate-free and toggling off again
restores the original selection; the Leads handler is the identical
function. -/
theorem C5_individual_toggle (prev : List Str) (i : Str) :
    (∀ x, x ∈ meetingsHandleSelectMeeting prev i true ↔ x ∈ prev ∨ x = i)
    ∧ (meetingsHandleSelectMeeting prev i true).length = prev.length + 1
    ∧ (∀ x, x ∈ meetingsHandleSelectMeeting prev i false ↔ x ∈ prev ∧ x ≠ i)
    ∧ (i ∉ prev → prev.Nodup →
        (meetingsHandleSelectMeeting prev i true).Nodup
        ∧ meetingsHandleSelectMeeting (meetingsHandleSelectMeeting prev i true) i false
            = prev)
    ∧ (∀ c, leadsHandleSelectLead prev i c = meetingsHandleSelectMeeting prev i c) := by
  refine ⟨?_, ?_, ?_, fun hni hnd => ⟨?_, ?_⟩, fun c => rfl⟩
  · intro x
    simp [meetingsHandleSelectMeeting]
  · simp [meetingsHandleSelectMeeting]
  · intro x
    simp [meetingsHandleSelectMeeting]
  · simp only [meetingsHandleSelectMeeting, if_pos]
    rw [List.nodup_append]
    refine ⟨hnd, List.nodup_singleton i, ?_⟩
    intro x hx hxi
    rw [List.mem_singleton] at hxi
    exact hni (hxi ▸ hx)
  · simp only [meetingsHandleSelectMeeting, if_pos, Bool.false_eq_true, if_false]
    rw [List.filter_append]
    have h1 : prev.filter (fun x => decide (x ≠ i)) = prev := by
      refine List.filter_eq_self.mpr (fun x hx => ?_)
      simp only [ne_eq, decide_not, Bool.not_eq_eq_eq_not, Bool.not_true, decide_eq_false_iff_not]
      exact fun he => hni (he ▸ hx)
    have h2 : [i].filter (fun x => decide (x ≠ i)) = [] := by simp
    rw [h1, h2, List.append_nil]

/-- Witness for C5 (amended): from the empty selection, toggling on a
concrete id yields a duplicate-free selection. -/
theorem C5_individual_toggle_witness :
    ("x".toList ∉ ([] : List Str))
    ∧ (meetingsHandleSelectMeeting [] ("x".toList) true).Nodup :=
  ⟨by decide, ((C5_individual_toggle [] ("x".toList)).2.2.2.1 (by decide) (by decide)).1⟩

/-- C6: the visible page slice holds exactly the elements with indices
from `(page-1)*pageSize` up to but excluding `page*pageSize` (element
`i` of the slice is element `(page-1)*pageSize + i` of the filtered
list, and the slice length never exceeds pageSize); concatenating the
slices of all pages 1..totalPages reproduces the whole filtered list,
so the slice lengths sum to the filtered count; and the recompute
effect resets currentPage to 1 whenever the search term or any
upstream filter or sort input changes. -/
theorem C6_pagination (filtered : List Lead) (page per i : Nat) (hper : 0 < per) :
    ((getCurrentPageLeads filtered page per).length ≤ per)
    ∧ (i < per →
        (getCurrentPageLeads filtered page per)[i]? = filtered[(page - 1) * per + i]?)
    ∧ (((List.range (leadsTotalPages filtered per)).map
          (fun k => getCurrentPageLeads filtered (k + 1) per)).flatten = filtered)
    ∧ (∀ (leads : List Lead) (term sf owf : Str) (sortF : Option Str) (dir : SortDir),
        (leadsRecompute leads term sf owf sortF dir).2 = 1) := by
  refine ⟨?_, fun hi => ?_, ?_, fun leads term sf owf sortF dir => rfl⟩
  · simp only [getCurrentPageLeads, List.length_take, List.length_drop]
    omega
  · simp [getCurrentPageLeads, List.getElem?_take, hi, List.getElem?_drop]
  · have he : (fun k => getCurrentPageLeads filtered (k + 1) per)
        = fun j => (filtered.drop (j * per)).take per := by
      funext j
      simp [getCurrentPageLeads]
    rw [he]
    exact chunks_flatten per hper filtered

/-- Witness for C6: on a concrete one-element list with page size 50,
element 0 of page 1 is element 0 of the filtered list. -/
theorem C6_pagination_witness :
    (0:Nat) < 50 ∧ (getCurrentPageLeads [leadA] 1 50)[0]? = [leadA][0]? := by
  refine ⟨by decide, ?_⟩
  have h := (C6_pagination [leadA] 1 50 0 (by decide)).2.1 (by decide)
  simpa using h

/-- Counterexample for C7: the LeadTable comparator applies
localeCompare to the raw field values without lowercasing, so the two
leads whose names differ only in letter case ("acme corp" vs
"ACME Corp") do NOT compare as equal keys — the comparator is nonzero,
contradicting the claim that every text-column comparator treats
case-differing values as equal. -/
theorem C7_counterexample :
    leadsCompare ("lead_name".toList) .asc leadA leadB ≠ 0 := by decide

/-- C7 (amended): the Meetings view text columns (subject and
lead/contact) lower-case both sides before comparing, so values that
agree after case folding compare as equal keys; the LeadTable
comparator instead applies locale comparison to the raw values —
values that are exactly equal compare as 0, but values differing only
in letter case (equal after case folding yet distinct) compare as
nonzero, case acting as a tie-break rather than being ignored. -/
theorem C7_text_sort_case_insensitivity :
    (∀ (dir : SortDir) (now : Int) (a b : Meeting),
        lowerStr a.subject = lowerStr b.subject →
          meetingsCompare ("subject".toList) dir now a b = 0)
    ∧ (∀ (dir : SortDir) (now : Int) (a b : Meeting),
        lowerStr (jsOrStr a.lead_name (jsOrStr a.contact_name []))
          = lowerStr (jsOrStr b.lead_name (jsOrStr b.contact_name [])) →
          meetingsCompare ("lead_contact".toList) dir now a b = 0)
    ∧ (∀ (field : Str) (dir : SortDir) (a b : Lead),
        getLeadField a field = getLeadField b field → leadsCompare field dir a b = 0)
    ∧ (∀ (field : Str) (dir : SortDir) (a b : Lead),
        lowerStr (getLeadField a field) = lowerStr (getLeadField b field) →
        getLeadField a field ≠ getLeadField b field →
        leadsCompare field dir a b ≠ 0) := by
  refine ⟨?_, ?_, ?_, ?_⟩
  · intro dir now a b h
    cases dir <;> simp [meetingsCompare, meetingsSortValue, svalCmp, h, lexCmp_self]
  · intro dir now a b h
    cases dir <;> simp [meetingsCompare, meetingsSortValue, svalCmp, h, lexCmp_self]
  · intro field dir a b h
    cases dir <;> simp [leadsCompare, h, localeCompare_self]
  · intro field dir a b hl hne
    have hz := localeCompare_ne_zero _ _ hl hne
    cases dir
    · simpa [leadsCompare] using hz
    · simp only [leadsCompare]
      rw [if_neg (by decide)]
      simpa [neg_eq_zero] using hz

/-- Witness for C7 (amended): the case-folded-equal but distinct lead
names of the two concrete leads yield a nonzero comparison (descending
direction). -/
theorem C7_text_sort_case_insensitivity_witness :
    leadsCompare ("lead_name".toList) .desc leadA leadB ≠ 0 :=
  C7_text_sort_case_insensitivity.2.2.2 ("lead_name".toList) .desc leadA leadB
    (by decide) (by decide)

/-- C8: for a sort column that is not one of the recognized column
identifiers, both comparator sides fall back to the empty string, so
the comparator is constantly zero and the (stable) sort returns the
filtered sequence unchanged, in both table views. -/
theorem C8_unknown_sort_column :
    (∀ (col : Str),
        col ∉ ["subject".toList, "date".toList, "time".toList,
               "lead_contact".toList, "status".toList] →
        ∀ (dir : SortDir) (now : Int) (l : List Meeting),
          (∀ a b, meetingsCompare col dir now a b = 0)
          ∧ meetingsSortStep (some col) dir now l = l)
    ∧ (∀ (field : Str), field ∉ leadFieldNames →
        ∀ (dir : SortDir) (l : List Lead),
          (∀ a b, leadsCompare field dir a b = 0)
          ∧ leadsSortStep (some field) dir l = l) := by
  constructor
  · intro col hcol dir now l
    simp only [List.mem_cons, List.not_mem_nil, or_false, not_or] at hcol
    obtain ⟨h1, h2, h3, h4, h5⟩ := hcol
    have hv : ∀ m : Meeting, meetingsSortValue col now m = .str [] := by
      intro m
      simp only [meetingsSortValue]
      rw [if_neg h1, if_neg h2, if_neg h3, if_neg h4, if_neg h5]
    have hc : ∀ a b, meetingsCompare col dir now a b = 0 := by
      intro a b
      cases dir <;> simp [meetingsCompare, hv, svalCmp, lexCmp]
    exact ⟨hc, jsSort_of_zero _ hc l⟩
  · intro field hf dir l
    have hg : ∀ x : Lead, getLeadField x field = [] :=
      fun x => getLeadField_unknown x field hf
    have hc : ∀ a b, leadsCompare field dir a b = 0 := by
      intro a b
      cases dir <;> simp [leadsCompare, hg, localeCompare_self]
    exact ⟨hc, jsSort_of_zero _ hc l⟩

/-- Witness for C8: sorting on the unrecognized column "bogus" leaves
concrete one-element lists unchanged in both views. -/
theorem C8_unknown_sort_column_witness :
    ("bogus".toList ∉ ["subject".toList, "date".toList, "time".toList,
        "lead_contact".toList, "status".toList])
    ∧ meetingsSortStep (some ("bogus".toList)) .asc 0 [sampleMeeting] = [sampleMeeting]
    ∧ ("bogus".toList ∉ leadFieldNames)
    ∧ leadsSortStep (some ("bogus".toList)) .asc [leadA] = [leadA] :=
  ⟨by decide,
   (C8_unknown_sort_column.1 ("bogus".toList) (by decide) .asc 0 [sampleMeeting]).2,
   by decide,
   (C8_unknown_sort_column.2 ("bogus".toList) (by decide) .asc [leadA]).2⟩

/-- C9: the search, status and owner/organizer filters are independent
AND conjuncts — applying them in any order (any permutation of the
three predicates, with the "all" sentinel read as an always-true
pass) yields exactly the list the code's filter stage computes, for
both table views. -/
theorem C9_filter_composition (now : Int) :
    (∀ (meetings : List Meeting) (term statusF orgF : Str)
        (qs : List (Meeting → Bool)),
        [meetingsSearchPred term, meetingsStatusPred statusF now,
         meetingsOrgPred orgF].Perm qs →
        meetingsFilterStep meetings term statusF orgF now
          = qs.foldl (fun acc p => acc.filter p) meetings)
    ∧ (∀ (leads : List Lead) (term statusF ownerF : Str)
        (qs : List (Lead → Bool)),
        [leadsSearchGuard term, leadsStatusGuard statusF,
         leadsOwnerGuard ownerF].Perm qs →
        leadsFilterOnly leads term statusF ownerF
          = qs.foldl (fun acc p => acc.filter p) leads) := by
  constructor
  · intro meetings term statusF orgF qs hperm
    rw [meetingsFilterStep_eq_foldl]
    exact filter_fold_perm hperm meetings
  · intro leads term statusF ownerF qs hperm
    rw [leadsFilterOnly_eq_foldl]
    exact filter_fold_perm hperm leads

/-- Witness for C9: swapping the search and status passes on a
concrete one-meeting list yields the same filtered list as the code's
single-pass filter. -/
theorem C9_filter_composition_witness :
    meetingsFilterStep [sampleMeeting] [] ("all".toList) ("all".toList) 0
      = [meetingsStatusPred ("all".toList) 0, meetingsSearchPred [],
         meetingsOrgPred ("all".toList)].foldl (fun acc p => acc.filter p) [sampleMeeting] :=
  (C9_filter_composition 0).1 [sampleMeeting] [] ("all".toList) ("all".toList) _
    (List.Perm.swap (meetingsStatusPred ("all".toList) 0) (meetingsSearchPred [])
      [meetingsOrgPred ("all".toList)])

/-- C10: a successful meetings fetch stores the transformed rows (null
data coerced to the empty list) and resets the bulk selection to the
empty set, while a failed fetch leaves the whole state — displayed
meetings and current selection — unchanged. -/
theorem C10_fetch_meetings (st : MeetingsPageState) (rows : Option (List RawMeeting)) :
    (fetchMeetingsStep st (.ok rows)).selectedMeetings = []
    ∧ (fetchMeetingsStep st (.ok rows)).meetings = (rows.getD []).map transformMeeting
    ∧ (∀ e : Unit, fetchMeetingsStep st (.error e) = st) :=
  ⟨rfl, rfl, fun _ => rfl⟩
